import Mathlib


/-!
Verification development for the wild_meta_telegram repository.

The repository has three Python modules:
* rss_macro_crypto_bot.py  — the RSS feed poller (dedup store, keyword
  classifier, sentiment ensemble, Telegram delivery with flood-control
  retry, per-feed processing loop);
* wildmeta_x_feed_bot.py   — the X (Twitter) timeline poller (its own dedup
  store, post formatter, bounded-retry Telegram delivery, per-post loop);
* wildmeta_bot_manager.py  — the asyncio supervisor (health monitor that
  restarts crashed bot tasks every 60 seconds).

Each definition below is a shallow embedding of the correspondingly named
Python function.  External collaborators (regex engines over the keyword
tables, the VADER lexicon, the HuggingFace models, the HTTP transport,
wall-clock time and local-timezone date rendering) are passed in as
explicit oracle parameters, exactly at the call boundary the source uses
them; the control flow around them is translated from the source.
-/

/-! ### Basic string helpers (Python string primitives used by the bots) -/

/-- Boolean test that the first list is an initial segment of the second. -/
def startsB : List Char → List Char → Bool
  | [], _ => true
  | _ :: _, [] => false
  | a :: xs, b :: ys => a == b && startsB xs ys

/-- Boolean substring test on char lists, scanning left to right
(the semantics of the Python operator `needle in hay`). -/
def infB : List Char → List Char → Bool
  | needle, [] => startsB needle []
  | needle, c :: rest => startsB needle (c :: rest) || infB needle rest

/-- Python `needle in hay` on strings. -/
def containsSubB (needle hay : String) : Bool :=
  infB needle.data hay.data

/-- Python `str.lower()` (ASCII case folding suffices for the cue words the
bots compare against). -/
def pyLower (s : String) : String :=
  ⟨s.data.map Char.toLower⟩

/-- Python `str.strip()` on the underlying char list. -/
def pyStripData (l : List Char) : List Char :=
  ((l.dropWhile Char.isWhitespace).reverse.dropWhile Char.isWhitespace).reverse

/-- Python `str.strip()`. -/
def pyStrip (s : String) : String :=
  ⟨pyStripData s.data⟩

/-- Python slicing `s[:n]`. -/
def pyTake (s : String) (n : Nat) : String :=
  ⟨s.data.take n⟩

/-- Python `str.rstrip()`. -/
def pyRstrip (s : String) : String :=
  ⟨(s.data.reverse.dropWhile Char.isWhitespace).reverse⟩

/-! ### DedupStore of the RSS bot (rss_macro_crypto_bot.py, table `seen`)

The SQLite table `seen(feed, entry_key, published_ts, first_seen_ts)` with
primary key `(feed, entry_key)` is modelled as a list of rows; `INSERT OR
IGNORE` appends a row only when no row with the same primary key exists. -/

/-- One row of the RSS bot's `seen` table. -/
structure SeenRow where
  feed : String
  key : String
  publishedTs : Option Int
  firstSeenTs : Int
deriving DecidableEq, Repr

/-- The RSS bot's `seen` table. -/
abbrev SeenTable := List SeenRow

/-- Embeds `seen_before(path, feed, key)`: SELECT 1 FROM seen WHERE
feed=? AND entry_key=? — true when a row with that primary key exists. -/
def seen_before (t : SeenTable) (feed key : String) : Bool :=
  t.any fun r => r.feed == feed && r.key == key

/-- Embeds `mark_seen(path, feed, key, published_ts)`: INSERT OR IGNORE on
primary key `(feed, entry_key)` — leaves the table unchanged when the key
already exists, otherwise appends one row (`now` stands for the
`int(time.time())` the source stores as `first_seen_ts`).  The SQL
conflict clause means the repeated call is not an error; the embedding is
a total function accordingly. -/
def mark_seen (t : SeenTable) (feed key : String) (publishedTs : Option Int)
    (now : Int) : SeenTable :=
  if seen_before t feed key then t
  else t ++ [⟨feed, key, publishedTs, now⟩]

/-- Number of rows of the `seen` table holding a given (feed, key). -/
def rowCount (t : SeenTable) (feed key : String) : Nat :=
  (t.filter fun r => r.feed == feed && r.key == key).length

/-! ### DedupStore of the X bot (wildmeta_x_feed_bot.py, table `x_posts`)

The table `x_posts(post_id PRIMARY KEY, username, content, posted_at,
first_seen_ts, telegram_msg_id)` is modelled as a list of rows; `INSERT OR
REPLACE` deletes any row with the same `post_id` and inserts the new one. -/

/-- One row of the X bot's `x_posts` table. -/
structure XRow where
  postId : String
  username : String
  content : String
  postedAt : Option Int
  firstSeenTs : Int
  telegramMsgId : Option Int
deriving DecidableEq, Repr

/-- The X bot's `x_posts` table. -/
abbrev XTable := List XRow

/-- Embeds the X bot's `seen_before(path, post_id)`. -/
def x_seen_before (t : XTable) (postId : String) : Bool :=
  t.any fun r => r.postId == postId

/-- Embeds the X bot's `mark_seen`: INSERT OR REPLACE on primary key
`post_id` — any existing row with that id is replaced by the new one, so
the call never raises and never accumulates duplicate rows. -/
def x_mark_seen (t : XTable) (postId username content : String)
    (postedAt : Option Int) (now : Int) (telegramMsgId : Option Int) : XTable :=
  (t.filter fun r => !(r.postId == postId))
    ++ [⟨postId, username, content, postedAt, now, telegramMsgId⟩]

/-- Number of rows of the `x_posts` table holding a given post id. -/
def xRowCount (t : XTable) (postId : String) : Nat :=
  (t.filter fun r => r.postId == postId).length

/-! ### Classifier (rss_macro_crypto_bot.py, matches_filters)

The three compiled keyword regexes (MACRO_REGEX, CRYPTO_REGEX, HYPER_REGEX)
are the out-of-scope keyword collaborators; they enter the embedding as a
record of oracle functions: a search test for the priority (Hyperliquid)
family and the findall match counts for the two topic families.  The
combination logic around them is translated from matches_filters. -/

/-- Oracle record for the compiled keyword regexes: search for the
priority family, findall counts for the macro and crypto families. -/
structure Matchers where
  hyperSearch : String → Bool
  macroCount : String → Nat
  cryptoCount : String → Nat

/-- The text the classifier scans, built exactly as in the source:
a space-join of title, summary and body. -/
def filterText (title summary body : String) : String :=
  title ++ " " ++ summary ++ " " ++ body

/-- Embeds matches_filters(title, summary, body) returning (include,
macro, crypto).  A priority-family (Hyperliquid) hit short-circuits to
(true, true, true); under POST_ONLY_ON_STRONG_MATCH the strong rule is
both families present or two or more hits in one family; otherwise either
family suffices. -/
def matches_filters (M : Matchers) (strongOnly : Bool)
    (title summary body : String) : Bool × Bool × Bool :=
  let text := filterText title summary body
  let hyper := M.hyperSearch text
  let macroHits := M.macroCount text
  let cryptoHits := M.cryptoCount text
  let macroF : Bool := decide (0 < macroHits)
  let cryptoF : Bool := decide (0 < cryptoHits)
  if hyper then (true, true, true)
  else if strongOnly then
    ((macroF && cryptoF) || decide (2 ≤ macroHits) || decide (2 ≤ cryptoHits),
      macroF, cryptoF)
  else (macroF || cryptoF, macroF, cryptoF)

/-! ### SentimentScorer (rss_macro_crypto_bot.py, sentiment_ensemble)

The VADER lexicon scorer and the two HuggingFace transformer pipelines are
external models; they enter as oracles.  The vader oracle maps a text to
its compound score.  The hf oracle maps the (truncated) text to the two
models' raw outputs, or none when lazy loading or inference raises — the
source's except-branch.  Everything around the oracles (stripping, the
short-text branch, label mapping, the 60/40 confidence fusion, the
hawkish/dovish nudges, the clamp, the thresholds) is translated from the
source. -/

/-- Sentiment label space of the bot ("pos" / "neu" / "neg"). -/
inductive SLabel
  | pos
  | neu
  | neg
deriving DecidableEq, Repr

/-- Raw output of one transformer model: native label and confidence. -/
structure ModelOut where
  label : String
  score : ℚ
deriving DecidableEq, Repr

/-- Combined raw output of the two transformer models. -/
structure HFOut where
  fin : ModelOut
  rob : ModelOut
deriving DecidableEq, Repr

/-- Result record of sentiment_ensemble (the per-model breakdown stores
the mapped label and the confidence, as the source dict does). -/
structure SentimentResult where
  label : SLabel
  score : ℚ
  compound : ℚ
  finbert : Option ModelOut
  roberta : Option ModelOut
  vader : Option ℚ
deriving DecidableEq, Repr

/-- Embeds map_finbert: lower-case the native label, look for the
substrings "pos" / "neg". -/
def map_finbert (label : String) : String :=
  let l := pyLower label
  if containsSubB "pos" l then "pos"
  else if containsSubB "neg" l then "neg"
  else "neu"

/-- Embeds map_roberta: lower-case the native label, look for "pos" or
"2", then "neu" or "1", else negative. -/
def map_roberta (label : String) : String :=
  let l := pyLower label
  if containsSubB "pos" l || containsSubB "2" l then "pos"
  else if containsSubB "neu" l || containsSubB "1" l then "neu"
  else "neg"

/-- Embeds as_num_fin / as_num_rob applied to an already-mapped label:
plus one for "pos", minus one for "neg", zero otherwise (map_finbert and
map_roberta are the identity on their own outputs, which is how the
source composes them). -/
def labelNum (m : String) : Int :=
  if m == "pos" then 1 else if m == "neg" then -1 else 0

/-- Hawkish cue test on the lower-cased text (source line: rate hike /
hawkish / liquidity crunch). -/
def cueHawk (lower : String) : Bool :=
  containsSubB "rate hike" lower || containsSubB "hawkish" lower
    || containsSubB "liquidity crunch" lower

/-- Dovish cue test on the lower-cased text (source line: etf approval /
rate cut / dovish). -/
def cueDove (lower : String) : Bool :=
  containsSubB "etf approval" lower || containsSubB "rate cut" lower
    || containsSubB "dovish" lower

/-- Embeds the heuristic nudges and clamp of sentiment_ensemble: subtract
0.05 on a hawkish cue, add 0.05 on a dovish cue, clamp to [-1, 1]. -/
def nudgeClamp (t : String) (comp : ℚ) : ℚ :=
  let lower := pyLower t
  let c₁ := if cueHawk lower then comp - 1/20 else comp
  let c₂ := if cueDove lower then c₁ + 1/20 else c₁
  max (-1) (min 1 c₂)

/-- The lexicon-only result used by the short-text branch and by the
fallback branch of sentiment_ensemble: thresholds at plus and minus 0.3,
score maps compound from [-1, 1] to [0, 1]. -/
def vaderResult (comp : ℚ) : SentimentResult :=
  { label := if comp ≥ 3/10 then .pos else if comp ≤ -(3/10) then .neg else .neu
    score := (comp + 1) / 2
    compound := comp
    finbert := none
    roberta := none
    vader := some comp }

/-- Embeds sentiment_ensemble(text).  The input is stripped; texts of
stripped length below 16 take the lexicon branch; otherwise the first
1200 characters go to the two transformer models (oracle hf; none models
the except-branch, falling back to the lexicon over the full stripped
text), whose outputs are fused with the fixed 60/40 confidence weighting,
nudged, clamped and thresholded at plus and minus 0.25. -/
def sentiment_ensemble (vader : String → ℚ) (hf : String → Option HFOut)
    (text : String) : SentimentResult :=
  let t₀ := pyStrip text
  if t₀.length < 16 then vaderResult (vader t₀)
  else
    let t := pyTake t₀ 1200
    match hf t with
    | none => vaderResult (vader t₀)
    | some o =>
        let lf := map_finbert o.fin.label
        let sf := o.fin.score
        let lr := map_roberta o.rob.label
        let sr := o.rob.score
        let nf := labelNum lf
        let nr := labelNum lr
        let wf := (3/5 : ℚ) * sf
        let wr := (2/5 : ℚ) * sr
        let denom := max (1/1000000) (wf + wr)
        let comp := nudgeClamp t ((nf * wf + nr * wr) / denom)
        { label := if comp ≥ 1/4 then .pos else if comp ≤ -(1/4) then .neg else .neu
          score := (comp + 1) / 2
          compound := comp
          finbert := some ⟨lf, sf⟩
          roberta := some ⟨lr, sr⟩
          vader := none }

/-! ### OutboundChannel, feed-source variant (rss_macro_crypto_bot.py, tg_send)

The HTTP transport is an external collaborator; a delivery call is driven
by a script: the list of responses the Telegram endpoint would return to
the successive POSTs.  A response carries its status code, the flood
control hints (Retry-After header and the JSON parameters.retry_after
field, each either an integer, present but unparsable, or absent), the
JSON ok flag and the message id the endpoint reports.  tg_send loops
until a non-429 response: on 429 it sleeps the suggested duration and
posts again; on a 4xx or 5xx response raise_for_status raises; otherwise
it logs when ok is false and returns — the Python function is annotated
`-> None` and returns no value either way. -/

/-- A flood-control hint as the parsing code sees it: an integer value,
a present but unparsable value, or no value at all. -/
inductive RHint
  | parsed (n : Int)
  | bad
  | absent
deriving DecidableEq, Repr

/-- One scripted response of the Telegram endpoint to a sendMessage POST. -/
structure TgResp where
  status : Nat
  headerHint : RHint
  jsonHint : RHint
  okFlag : Bool
  messageId : Option Int
deriving DecidableEq, Repr

/-- Embeds the Retry-After parsing of tg_send:
int(headers.get("Retry-After") or json().parameters.retry_after default 3)
inside a try/except that leaves the initial value 3 on any failure.  An
unparsable header raises inside int() and yields 3 without consulting the
JSON hint; an absent header falls through to the JSON hint, itself
defaulting to 3 when unparsable or absent. -/
def suggestedWait (hdr js : RHint) : Int :=
  match hdr with
  | .parsed n => n
  | .bad => 3
  | .absent =>
      match js with
      | .parsed n => n
      | .bad => 3
      | .absent => 3

/-- Observable outcome of a tg_send call: the function returned (carrying
the Python return value, which the source always leaves as None), an
exception escaped (raise_for_status on a 4xx/5xx response), or the
response script ran out while the loop still wanted to post. -/
inductive TgOutcome
  | returned (v : Option Int)
  | raised
  | scriptEnded
deriving DecidableEq, Repr

/-- Embeds tg_send(client, text): loop on the response script, sleeping
the suggested duration on each 429 and posting again, until a non-429
response; that response either raises (status 400 and above) or the
function returns None.  The first component collects the sleep durations
in order. -/
def tg_send : List TgResp → List Int × TgOutcome
  | [] => ([], .scriptEnded)
  | r :: rest =>
      if r.status ≠ 429 then
        if 400 ≤ r.status then ([], .raised)
        else ([], .returned none)
      else
        let w := suggestedWait r.headerHint r.jsonHint
        let (s, out) := tg_send rest
        (w :: s, out)

/-- True when a tg_send outcome surfaces a delivery id to its caller. -/
def returnsId : TgOutcome → Bool
  | .returned (some _) => true
  | _ => false

/-- A scripted 429 response built from its two flood-control hints. -/
def mk429 (p : RHint × RHint) : TgResp :=
  ⟨429, p.1, p.2, true, none⟩

/-! ### OutboundChannel, social-timeline variant (wildmeta_x_feed_bot.py,
tg_send_message)

The loop posts while retry_count < max_retries (3).  A 429 response
sleeps the JSON retry_after hint (default 5) and increments retry_count;
a response with ok true returns the message id; ok false returns None at
once; any exception (network failure, or raise_for_status on a non-2xx
status — the whole body sits inside the try) increments retry_count and
backs off 2 ** retry_count seconds when budget remains.  Falling out of
the loop returns None.  When the script is exhausted the environment is
modelled as raising (the err case). -/

/-- One scripted behaviour of the endpoint for a single X-bot POST:
a 429 carrying the optional JSON retry_after integer, a response with
ok true carrying result.message_id, a response with ok false, or an
exception (network error or a non-2xx status raised by raise_for_status). -/
inductive XResp
  | rate (hint : Option Int)
  | okResp (msgId : Option Int)
  | notOk
  | err
deriving DecidableEq, Repr

/-- Loop body of tg_send_message, with fuel = max_retries - retry_count
and rc = retry_count.  Returns the sleep durations, the number of POST
attempts actually made, and the returned message id (None on failure). -/
def tg_send_message_aux : Nat → Nat → List XResp → List Int × Nat × Option Int
  | 0, _, _ => ([], 0, none)
  | fuel + 1, rc, .rate hint :: rest =>
      let r := tg_send_message_aux fuel (rc + 1) rest
      (hint.getD 5 :: r.1, r.2.1 + 1, r.2.2)
  | _ + 1, _, .okResp mid :: _ => ([], 1, mid)
  | _ + 1, _, .notOk :: _ => ([], 1, none)
  | fuel + 1, rc, .err :: rest =>
      if rc + 1 < 3 then
        let r := tg_send_message_aux fuel (rc + 1) rest
        (((2 : Int) ^ (rc + 1)) :: r.1, r.2.1 + 1, r.2.2)
      else ([], 1, none)
  | fuel + 1, rc, [] =>
      if rc + 1 < 3 then
        let r := tg_send_message_aux fuel (rc + 1) []
        (((2 : Int) ^ (rc + 1)) :: r.1, r.2.1 + 1, r.2.2)
      else ([], 1, none)

/-- Embeds tg_send_message(client, text): max_retries = 3, retry_count
starts at 0. -/
def tg_send_message (script : List XResp) : List Int × Nat × Option Int :=
  tg_send_message_aux 3 0 script

/-- True for a scripted response on which the POST attempt does not
succeed: a rate-limit signal, or an exception (network failure, or a
non-2xx status raised by raise_for_status inside the try block). -/
def isFailing : XResp → Bool
  | .rate _ => true
  | .err => true
  | _ => false

/-- A fetched X post as the per-post loop of process_x_feed consumes it. -/
structure XPost where
  postId : String
  username : String
  content : String
  postedAt : Option Int
deriving DecidableEq, Repr

/-- Embeds the per-post body of process_x_feed: skip when the dedup
pre-check fires; otherwise deliver through tg_send_with_preview (which
wraps tg_send_message) and test the returned id with Python truthiness
(`if msg_id:` — a missing id and an id of 0 both count as failure): on
success mark the post seen with the id, on failure still mark it seen
with id None, so a failed post is treated as handled.  The Bool reports
whether an outbound message was counted (posted_count). -/
def process_x_post (store : XTable) (p : XPost) (script : List XResp)
    (now : Int) : XTable × Bool :=
  if x_seen_before store p.postId then (store, false)
  else
    let mid := (tg_send_message script).2.2
    if (match mid with
        | some m => !(m == 0)
        | none => false) then
      (x_mark_seen store p.postId p.username p.content p.postedAt now mid,
        true)
    else
      (x_mark_seen store p.postId p.username p.content p.postedAt now none,
        false)

/-! ### Formatter (rss_macro_crypto_bot.py, format_message and helpers)

The helper h(x) is html.escape(x or "", quote=False): it rewrites the
ampersand, less-than and greater-than characters to entities and leaves
quotes alone.  The display-keyword regex table DISPLAY_KEYWORDS_COMPILED
is a keyword collaborator and enters as a list of (name, search test)
pairs; datetime.fromtimestamp().strftime rendering depends on the local
timezone and enters as the fmtDate oracle. -/

/-- Entity expansion of one character under html.escape without quote
handling. -/
def escChar (c : Char) : List Char :=
  if c = '&' then "&amp;".data
  else if c = '<' then "&lt;".data
  else if c = '>' then "&gt;".data
  else [c]

/-- Embeds h(x) = html.escape(x or "", quote=False): the three sequential
str.replace passes amount to this per-character expansion. -/
def hEsc (x : String) : String :=
  ⟨x.data.flatMap escChar⟩

/-- Python `s.replace(old, new)` (all non-overlapping occurrences, left to
right); the fuel argument is the remaining scan length. -/
def replaceAux (old new : List Char) : Nat → List Char → List Char
  | 0, l => l
  | _ + 1, [] => []
  | fuel + 1, c :: rest =>
      if startsB old (c :: rest) then
        new ++ replaceAux old new fuel (rest.drop (old.length - 1))
      else c :: replaceAux old new fuel rest

/-- Python `s.replace(old, new)` on strings. -/
def pyReplace (s old new : String) : String :=
  ⟨replaceAux old.data new.data s.data.length s.data⟩

/-- Python `a or b` on strings: the first operand when non-empty. -/
def pyOr (a b : String) : String :=
  if a ≠ "" then a else b

/-- Embeds clip(s, n): identity up to n characters, else truncate,
right-strip and add the ellipsis character. -/
def clip (s : String) (n : Nat) : String :=
  if s.length ≤ n then s else pyRstrip (pyTake s n) ++ "…"

/-- Network-location extraction of urlparse(url).netloc for an absolute
URL: the characters after the scheme separator up to the first slash,
question mark or hash (empty when the separator is absent, matching the
try/except fallback of host_of). -/
def netlocOf (url : String) : String :=
  ⟨netlocAux url.data⟩
where
  /-- Scan for the "://" separator, then take the authority characters. -/
  netlocAux : List Char → List Char
    | [] => []
    | c :: rest =>
        if startsB "://".data (c :: rest) then
          (rest.drop 2).takeWhile fun d => d ≠ '/' && d ≠ '?' && d ≠ '#'
        else netlocAux rest

/-- Embeds host_of(url): urlparse(url).netloc.replace("www.", ""). -/
def host_of (url : String) : String :=
  pyReplace (netlocOf url) "www." ""

/-- Number of whitespace-separated words, the length of Python
`text.split()`. -/
def wordCount (s : String) : Nat :=
  ((s.split Char.isWhitespace).filter fun w => w ≠ "").length

/-- Embeds read_time_minutes(text, wpm=220):
max(1, ceil(max(1, len(text.split())) / 220)). -/
def read_time_minutes (text : String) : Nat :=
  let words := max 1 (wordCount text)
  max 1 ((words + 219) / 220)

/-- Embeds pick_keywords: walk the display-keyword table in order,
collecting the names whose pattern matches, deduplicating, stopping once
the limit is reached. -/
def pick_keywords (dk : List (String × (String → Bool))) (text : String)
    (limit : Nat) : List String :=
  go dk []
where
  /-- Loop of pick_keywords over the remaining table rows. -/
  go : List (String × (String → Bool)) → List String → List String
    | [], acc => acc
    | (name, pat) :: rest, acc =>
        let acc' := if pat text && !(acc.contains name) then acc ++ [name] else acc
        if limit ≤ acc'.length then acc' else go rest acc'

/-- The rule table of why_it_matters: cue substrings and the fixed note
reported for the first rule that fires. -/
def whyRules : List (List String × String) :=
  [(["rate hike", "hawkish"],
      "Tighter policy; typically risk-off for duration-sensitive assets."),
    (["rate cut", "dovish"],
      "Easier policy; typically supportive for risk assets and liquidity."),
    (["etf approval", "spot etf", "etf launch"],
      "Mainstream access → potential inflows and volatility."),
    (["liquidity crunch", "funding stress", "bank run"],
      "Funding stress; spillovers to broader markets possible."),
    (["regulation", "sec charges", "lawsuit"],
      "Regulatory overhang; headline risk for tokens/exchanges."),
    (["inflation cools", "disinflation"],
      "Cooling prices; supports rate-cut odds and risk appetite."),
    (["inflation surges", "reacceleration"],
      "Hot inflation; pressures yields and weighs on risk assets.")]

/-- Embeds why_it_matters(text): lower-case the text and return the note
of the first rule one of whose cue substrings occurs. -/
def why_it_matters (text : String) : Option String :=
  let t := pyLower text
  (whyRules.find? fun r => r.1.any fun k => containsSubB k t).map fun r => r.2

/-- Embeds human_label on the mapped label space. -/
def human_label (l : SLabel) : String :=
  match l with
  | .pos => "🟢 Positive"
  | .neu => "⚪ Neutral"
  | .neg => "🔴 Negative"

/-- Half-up rounding to the nearest integer, the floor of q + 1/2
computed on numerator and denominator. -/
def roundHalfUp (q : ℚ) : Int :=
  Int.fdiv (2 * q.num + q.den) (2 * q.den)

/-- Two-decimal fixed-point rendering of a rational, modelling the
f-string format specifier .2f applied to the bot's float scores (the
half-even tie behaviour of binary floats is idealised to half-up, which
agrees on the concrete scores evaluated here). -/
def fmt2 (q : ℚ) : String :=
  let n : Int := roundHalfUp (q * 100)
  let m := n.natAbs
  (if n < 0 then "-" else "")
    ++ toString (m / 100) ++ "."
    ++ (if m % 100 < 10 then "0" else "") ++ toString (m % 100)

/-- Join with single newlines, Python "\n".join(lines). -/
def joinNL (lines : List String) : String :=
  String.intercalate "\n" lines

/-- Embeds format_sentiment_block(s): the badge line with the ensemble
score mapped to a ten-point scale, the compound line, and one line per
present model breakdown. -/
def format_sentiment_block (s : SentimentResult) : String :=
  joinNL
    ([human_label s.label ++ " <b>" ++ fmt2 (s.score * 10) ++ "/10</b>",
      "<code>Ensemble comp: " ++ fmt2 ((s.compound + 1) / 2 * 10) ++ "/10</code>"]
      ++ (match s.finbert with
          | some m =>
              ["<code>FinBERT: " ++ hEsc m.label ++ " " ++ fmt2 (m.score * 10)
                ++ "/10</code>"]
          | none => [])
      ++ (match s.roberta with
          | some m =>
              ["<code>RoBERTa: " ++ hEsc m.label ++ " " ++ fmt2 (m.score * 10)
                ++ "/10</code>"]
          | none => [])
      ++ (match s.vader with
          | some c =>
              ["<code>VADER: comp " ++ fmt2 ((c + 1) / 2 * 10) ++ "/10</code>"]
          | none => []))

/-- Embeds format_insights_block(url, body, title, summary).  Note that
the host is interpolated into the italics markup without passing through
the escape helper h — unlike the why-it-matters note on the target line. -/
def format_insights_block (dk : List (String × (String → Bool)))
    (url body title summary : String) : String :=
  let txt := pyStrip (title ++ " " ++ summary ++ " " ++ body)
  let kw := pick_keywords dk txt 6
  let readMins := read_time_minutes (pyOr body (pyOr summary title))
  let wc := wordCount (pyOr body (pyOr summary title))
  let host := host_of url
  let parts := ["📊 <i>" ++ host ++ "</i> • ~" ++ toString readMins
      ++ " min • " ++ toString wc ++ " words"]
  let parts := if kw ≠ [] then
      parts ++ ["🔎 " ++ String.intercalate ", "
        (kw.map fun k => "#" ++ pyReplace k " " "")]
    else parts
  let parts := match why_it_matters txt with
    | some w => parts ++ ["🎯 " ++ hEsc w]
    | none => parts
  joinNL parts

/-- Modelled from the spec: the insights block as §4.4 demands it, with
every user-supplied interpolation — here the URL-derived host — passed
through the escape helper; all else identical to format_insights_block. -/
def format_insights_block_spec (dk : List (String × (String → Bool)))
    (url body title summary : String) : String :=
  let txt := pyStrip (title ++ " " ++ summary ++ " " ++ body)
  let kw := pick_keywords dk txt 6
  let readMins := read_time_minutes (pyOr body (pyOr summary title))
  let wc := wordCount (pyOr body (pyOr summary title))
  let host := host_of url
  let parts := ["📊 <i>" ++ hEsc host ++ "</i> • ~" ++ toString readMins
      ++ " min • " ++ toString wc ++ " words"]
  let parts := if kw ≠ [] then
      parts ++ ["🔎 " ++ String.intercalate ", "
        (kw.map fun k => "#" ++ pyReplace k " " "")]
    else parts
  let parts := match why_it_matters txt with
    | some w => parts ++ ["🎯 " ++ hEsc w]
    | none => parts
  joinNL parts

/-- Embeds format_message.  The fmtDate oracle stands for the local
timezone strftime rendering of a nonzero published timestamp (Python
treats both None and 0 as falsy, leaving the date out). -/
def format_message (fmtDate : Int → String)
    (dk : List (String × (String → Bool)))
    (feedTitle title url summary : String) (sent : SentimentResult)
    (hyper : Bool) (pubTs : Option Int) (tags : List String)
    (body : String) : String :=
  let dateStr := match pubTs with
    | none => ""
    | some t => if t = 0 then "" else fmtDate t
  let tagList := if hyper && !(tags.contains "Hyperliquid")
    then tags ++ ["Hyperliquid"] else tags
  let tagsLine := if tagList ≠ [] then
      String.intercalate " " (tagList.map fun t => "#" ++ pyReplace t " " "")
    else ""
  let header := "<b>📰 " ++ hEsc title ++ "</b>\n🗞️ " ++ hEsc feedTitle
    ++ (if dateStr ≠ "" then " — " ++ hEsc dateStr else "")
  let senti := format_sentiment_block sent
  let insights := format_insights_block dk url body title summary
  let lines := [header, senti, "🧾 " ++ hEsc (clip summary 400)]
  let lines := if tagsLine ≠ "" then lines ++ [tagsLine] else lines
  let lines := lines ++ [insights]
  let lines := if url ≠ "" then
      lines ++ ["🔗 <a href=\"" ++ hEsc url ++ "\">" ++ hEsc url ++ "</a>"]
    else lines
  joinNL lines

/-- Modelled from the spec: format_message with the fully escaped
insights block of §4.4; all other interpolations are those of the
source (which already escapes them). -/
def format_message_spec (fmtDate : Int → String)
    (dk : List (String × (String → Bool)))
    (feedTitle title url summary : String) (sent : SentimentResult)
    (hyper : Bool) (pubTs : Option Int) (tags : List String)
    (body : String) : String :=
  let dateStr := match pubTs with
    | none => ""
    | some t => if t = 0 then "" else fmtDate t
  let tagList := if hyper && !(tags.contains "Hyperliquid")
    then tags ++ ["Hyperliquid"] else tags
  let tagsLine := if tagList ≠ [] then
      String.intercalate " " (tagList.map fun t => "#" ++ pyReplace t " " "")
    else ""
  let header := "<b>📰 " ++ hEsc title ++ "</b>\n🗞️ " ++ hEsc feedTitle
    ++ (if dateStr ≠ "" then " — " ++ hEsc dateStr else "")
  let senti := format_sentiment_block sent
  let insights := format_insights_block_spec dk url body title summary
  let lines := [header, senti, "🧾 " ++ hEsc (clip summary 400)]
  let lines := if tagsLine ≠ "" then lines ++ [tagsLine] else lines
  let lines := lines ++ [insights]
  let lines := if url ≠ "" then
      lines ++ ["🔗 <a href=\"" ++ hEsc url ++ "\">" ++ hEsc url ++ "</a>"]
    else lines
  joinNL lines

/-! ### Supervisor (wildmeta_bot_manager.py, BotManager.health_monitor)

The health monitor loops while the shutdown event is clear: it sleeps 60
seconds, then for each enabled bot whose task object exists and reports
done() it reads task.exception() and, when an exception is present,
schedules a fresh task.  During normal operation a bot task is either
still running or done — with or without an exception (tasks are only
cancelled during shutdown, when the monitor itself is cancelled inside
its sleep, CancelledError not being caught by its except Exception). -/

/-- Observable state of one asyncio bot task. -/
inductive TaskSt
  | running
  | doneOk
  | doneErr
deriving DecidableEq, Repr

/-- The manager state the health monitor inspects: the enabled flags and
the two task handles (None before scheduling). -/
structure MState where
  rssEnabled : Bool
  xEnabled : Bool
  rssTask : Option TaskSt
  xTask : Option TaskSt
deriving DecidableEq, Repr

/-- Embeds task.done(). -/
def taskDone : TaskSt → Bool
  | .running => false
  | _ => true

/-- Embeds the truthiness of task.exception() for a done task. -/
def taskErr : TaskSt → Bool
  | .doneErr => true
  | _ => false

/-- Restart decision for one bot inside the monitor body: when the bot is
enabled, its task handle exists, the task is done and holds an exception,
a fresh (running) task replaces it; otherwise the handle is untouched. -/
def restartTask (enabled : Bool) (task : Option TaskSt) : Option TaskSt :=
  if enabled then
    match task with
    | some t => if taskDone t && taskErr t then some .running else task
    | none => task
  else task

/-- One pass of the health monitor body: the source checks the RSS task
and then the X task, each block reading and writing only its own bot's
handle, so the pass acts field-wise on the two handles. -/
def health_sweep (m : MState) : MState :=
  { m with rssTask := restartTask m.rssEnabled m.rssTask
           xTask := restartTask m.xEnabled m.xTask }

/-- The monitor run after n iterations: each iteration sleeps 60 seconds
and then sweeps (sweeps modelled as instantaneous); the second component
is the elapsed time at the n-th sweep. -/
def monitor_trace (m : MState) : Nat → MState × Int
  | 0 => (m, 0)
  | n + 1 =>
      let r := monitor_trace m n
      (health_sweep r.1, r.2 + 60)

/-! ### SourcePoller (rss_macro_crypto_bot.py, process_feed per-entry loop)

One entry of one feed's cycle, lines 537-596 of the source.  The fetch of
the linked page and full-text extraction are external (the resulting body
string is an input), and so is the outcome of the tg_send call (sendOk
false models tg_send raising — the per-entry except swallows it and the
entry is neither delivered nor marked).  run_loop re-runs init_db on
every (re)start: CREATE TABLE IF NOT EXISTS, which keeps existing rows. -/

/-- A parsed feed entry as the loop reads it (key is the resolved
entry_key; pubTs the to_unix_ts of the published field). -/
structure RssEntry where
  key : String
  link : String
  title : String
  summary : String
  pubTs : Option Int
deriving Repr

/-- Per-entry external outcomes: the extracted body (empty on extraction
failure) and whether the tg_send call succeeds. -/
structure EntryEnv where
  body : String
  sendOk : Bool
deriving Repr

/-- Startup configuration of the RSS bot relevant to one feed cycle. -/
structure RssCfg where
  strongOnly : Bool
  maxAgeDays : Int
  now : Int
  feedUrl : String
  feedTitle : String

/-- The oracle collaborators of one feed cycle. -/
structure RssEnv where
  vader : String → ℚ
  hf : String → Option HFOut
  M : Matchers
  dk : List (String × (String → Bool))
  fmtDate : Int → String

/-- An outbound message actually delivered for a feed entry. -/
structure Delivery where
  feed : String
  key : String
  msg : String
deriving DecidableEq, Repr

/-- Embeds too_old(pub_ts): False when pub_ts is falsy (None or 0),
else whether the age exceeds MAX_AGE_DAYS in seconds. -/
def too_old (now maxAgeDays : Int) (pubTs : Option Int) : Bool :=
  match pubTs with
  | none => false
  | some t => if t = 0 then false else decide (now - t > maxAgeDays * 86400)

/-- Embeds init_db: CREATE TABLE IF NOT EXISTS — existing rows of the
seen table survive a restart untouched. -/
def init_db (t : SeenTable) : SeenTable := t

/-- The include decision for one entry: matches_filters, then the
strong-match rescue of process_feed lines 556-560 (an extreme ensemble
score on the truncated text rescues a weak family match). -/
def entry_include (cfg : RssCfg) (env : RssEnv) (e : RssEntry)
    (ev : EntryEnv) : Bool :=
  let fres := matches_filters env.M cfg.strongOnly e.title e.summary ev.body
  if !fres.1 && cfg.strongOnly then
    let tmp := pyTake (e.title ++ "\n" ++ e.summary ++ "\n" ++ ev.body) 1200
    let ts := sentiment_ensemble env.vader env.hf tmp
    (fres.2.1 || fres.2.2) && (decide (ts.score ≥ 4/5) || decide (ts.score ≤ 1/5))
  else fres.1

/-- The message rendered for an included entry: sentiment over the first
1600 characters, Macro and Crypto tags from the family booleans, and
format_message with the first non-empty of body, summary, title as the
summary argument. -/
def entry_message (cfg : RssCfg) (env : RssEnv) (e : RssEntry)
    (ev : EntryEnv) : String :=
  let fres := matches_filters env.M cfg.strongOnly e.title e.summary ev.body
  let hyper := env.M.hyperSearch (filterText e.title e.summary ev.body)
  let raw := pyTake (e.title ++ "\n" ++ e.summary ++ "\n" ++ ev.body) 1600
  let sent := sentiment_ensemble env.vader env.hf raw
  let tags := (if fres.2.1 then ["Macro"] else [])
    ++ (if fres.2.2 then ["Crypto"] else [])
  format_message env.fmtDate env.dk cfg.feedTitle e.title e.link
    (pyOr ev.body (pyOr e.summary e.title)) sent hyper e.pubTs tags ev.body

/-- Embeds the per-entry body of process_feed: the dedup pre-check comes
first; an over-age entry is marked seen and skipped; a non-included entry
is marked seen and skipped; an included entry is formatted and sent —
on success the delivery happens and mark_seen commits afterwards, on a
send exception the per-entry handler swallows the error, so the entry is
neither delivered nor marked. -/
def process_entry (cfg : RssCfg) (env : RssEnv) (store : SeenTable)
    (e : RssEntry) (ev : EntryEnv) : SeenTable × Option Delivery :=
  if seen_before store cfg.feedUrl e.key then (store, none)
  else if too_old cfg.now cfg.maxAgeDays e.pubTs then
    (mark_seen store cfg.feedUrl e.key e.pubTs cfg.now, none)
  else if !entry_include cfg env e ev then
    (mark_seen store cfg.feedUrl e.key e.pubTs cfg.now, none)
  else if ev.sendOk then
    (mark_seen store cfg.feedUrl e.key e.pubTs cfg.now,
      some ⟨cfg.feedUrl, e.key, entry_message cfg env e ev⟩)
  else (store, none)

/-- One feed cycle over the fetched entries in upstream order, threading
the seen table and collecting the deliveries made. -/
def process_cycle (cfg : RssCfg) (env : RssEnv) :
    SeenTable → List (RssEntry × EntryEnv) → SeenTable × List Delivery
  | store, [] => (store, [])
  | store, (e, ev) :: rest =>
      let r₁ := process_entry cfg env store e ev
      let r₂ := process_cycle cfg env r₁.1 rest
      (r₂.1, match r₁.2 with
        | some d => d :: r₂.2
        | none => r₂.2)

/-- Number of deliveries in a cycle's output for a given item key. -/
def countDeliv (key : String) (ds : List Delivery) : Nat :=
  (ds.filter fun d => d.key == key).length

/-! Supporting lemmas about the two stores. -/

theorem mark_seen_of_seen (t : SeenTable) (feed key : String)
    (p : Option Int) (now : Int) (hs : seen_before t feed key = true) :
    mark_seen t feed key p now = t := by
  unfold mark_seen
  simp [hs]

theorem seen_before_mark_seen (t : SeenTable) (feed key : String)
    (p : Option Int) (now : Int) :
    seen_before (mark_seen t feed key p now) feed key = true := by
  unfold mark_seen
  by_cases hs : seen_before t feed key = true
  · simp [hs]
  · simp only [hs, Bool.false_eq_true, if_false]
    simp [seen_before, List.any_append]

theorem rowCount_mark_seen_of_absent (t : SeenTable) (feed key : String)
    (p : Option Int) (now : Int) (habs : seen_before t feed key = false) :
    rowCount (mark_seen t feed key p now) feed key = rowCount t feed key + 1 := by
  unfold mark_seen
  simp only [habs, Bool.false_eq_true, if_false]
  simp [rowCount, List.filter_append]

theorem rowCount_eq_zero_of_not_seen (t : SeenTable) (feed key : String)
    (habs : seen_before t feed key = false) :
    rowCount t feed key = 0 := by
  induction t with
  | nil => simp [rowCount]
  | cons r rest ih =>
      simp only [seen_before, List.any_cons, Bool.or_eq_false_iff] at habs
      simp only [rowCount, List.filter_cons, habs.1]
      exact ih (by simpa [seen_before] using habs.2)

theorem seen_before_eq_false_of_rowCount_zero (t : SeenTable) (feed key : String)
    (h : rowCount t feed key = 0) :
    seen_before t feed key = false := by
  induction t with
  | nil => simp [seen_before]
  | cons r rest ih =>
      by_cases hr : (r.feed == feed && r.key == key) = true
      · exfalso
        simp [rowCount, List.filter_cons, hr] at h
      · simp only [rowCount, List.filter_cons, hr] at h
        simp only [seen_before, List.any_cons, hr, Bool.false_or]
        exact ih (by simpa [rowCount] using h)

theorem xRowCount_x_mark_seen (t : XTable) (postId username content : String)
    (postedAt : Option Int) (now : Int) (mid : Option Int) :
    xRowCount (x_mark_seen t postId username content postedAt now mid) postId = 1 := by
  unfold x_mark_seen xRowCount
  rw [List.filter_append]
  have hleft :
      (t.filter fun r => !(r.postId == postId)).filter
        (fun r => r.postId == postId) = [] := by
    rw [List.filter_filter]
    apply List.filter_eq_nil_iff.mpr
    intro r _
    by_cases h : (r.postId == postId) = true <;> simp [h]
  rw [hleft]
  simp

/-- C2: calling the dedup recordSeen operation twice with the same key, in
either bot variant, leaves exactly one stored row for that key and (being a
total function mirroring the SQL conflict clauses INSERT OR IGNORE and
INSERT OR REPLACE) does not raise.  The RSS store needs the primary-key
invariant (at most one pre-existing row per key); the X store's REPLACE
yields one row unconditionally. -/
theorem C2_recordSeen_idempotent (t : SeenTable) (feed key : String)
    (p₁ p₂ : Option Int) (n₁ n₂ : Int)
    (hpk : rowCount t feed key ≤ 1)
    (xt : XTable) (pid u₁ u₂ c₁ c₂ : String) (a₁ a₂ : Option Int)
    (m₁ m₂ : Int) (id₁ id₂ : Option Int) :
    rowCount (mark_seen (mark_seen t feed key p₁ n₁) feed key p₂ n₂) feed key = 1
    ∧ xRowCount
        (x_mark_seen (x_mark_seen xt pid u₁ c₁ a₁ m₁ id₁) pid u₂ c₂ a₂ m₂ id₂)
        pid = 1 := by
  constructor
  · have h1 : seen_before (mark_seen t feed key p₁ n₁) feed key = true :=
      seen_before_mark_seen t feed key p₁ n₁
    rw [mark_seen_of_seen _ feed key p₂ n₂ h1]
    by_cases hs : seen_before t feed key = true
    · have hz : rowCount t feed key ≠ 0 := by
        intro h0
        rw [seen_before_eq_false_of_rowCount_zero t feed key h0] at hs
        exact Bool.false_ne_true hs
      have : rowCount t feed key = 1 := Nat.le_antisymm hpk (Nat.one_le_iff_ne_zero.mpr hz)
      unfold mark_seen
      simpa [hs]
    · have hs' : seen_before t feed key = false := by
        cases h : seen_before t feed key
        · rfl
        · exact absurd h hs
      rw [rowCount_mark_seen_of_absent t feed key p₁ n₁ hs',
        rowCount_eq_zero_of_not_seen t feed key hs']
  · exact xRowCount_x_mark_seen _ pid u₂ c₂ a₂ m₂ id₂

/-- Witness for C2 at a concrete store: a table already holding the key
once, marked twice more, still holds exactly one row; same for the X
store. -/
theorem C2_recordSeen_idempotent_witness :
    rowCount [⟨"f", "k", some 5, 100⟩] "f" "k" ≤ 1
    ∧ (rowCount
        (mark_seen (mark_seen [⟨"f", "k", some 5, 100⟩] "f" "k" (some 5) 101)
          "f" "k" (some 5) 102) "f" "k" = 1
      ∧ xRowCount
          (x_mark_seen (x_mark_seen [] "p1" "u" "c" (some 7) 100 none)
            "p1" "u" "c2" (some 7) 200 (some 9)) "p1" = 1) :=
  ⟨by decide,
    C2_recordSeen_idempotent [⟨"f", "k", some 5, 100⟩] "f" "k"
      (some 5) (some 5) 101 102 (by decide)
      [] "p1" "u" "u" "c" "c2" (some 7) (some 7) 100 200 none (some 9)⟩

/-- C4: in strict mode the classifier includes an item exactly when the
priority family matches, or both the macro and the crypto family match,
or either family has at least two keyword hits, all evaluated on the
space-joined title, summary and body. -/
theorem C4_strict_include_iff (M : Matchers) (title summary body : String) :
    (matches_filters M true title summary body).1
      = (M.hyperSearch (filterText title summary body)
          || (decide (0 < M.macroCount (filterText title summary body))
              && decide (0 < M.cryptoCount (filterText title summary body)))
          || decide (2 ≤ M.macroCount (filterText title summary body))
          || decide (2 ≤ M.cryptoCount (filterText title summary body))) := by
  unfold matches_filters
  cases hh : M.hyperSearch (filterText title summary body) <;>
    simp [hh, Bool.or_assoc]

theorem pyStrip_length_le (s : String) : (pyStrip s).length ≤ s.length := by
  have h1 : ∀ l : List Char, (l.dropWhile Char.isWhitespace).length ≤ l.length :=
    fun l => (List.dropWhile_sublist _).length_le
  calc (pyStrip s).length
      = (((s.data.dropWhile Char.isWhitespace).reverse.dropWhile
          Char.isWhitespace).reverse).length := rfl
    _ = ((s.data.dropWhile Char.isWhitespace).reverse.dropWhile
          Char.isWhitespace).length := List.length_reverse _
    _ ≤ (s.data.dropWhile Char.isWhitespace).reverse.length := h1 _
    _ = (s.data.dropWhile Char.isWhitespace).length := List.length_reverse _
    _ ≤ s.data.length := h1 _
    _ = s.length := rfl

/-- C5: on any text of length below 16 the scorer never invokes the
transformer models — the result does not depend on the hf oracle at all,
its per-model fields are empty, and it is the pure lexicon result: the
VADER compound with thresholds at 0.3 and -0.3 and score mapping
(compound + 1) / 2. -/
theorem C5_short_text_lexicon_only (vader : String → ℚ)
    (hf hf' : String → Option HFOut) (text : String)
    (hlen : text.length < 16) :
    sentiment_ensemble vader hf text = sentiment_ensemble vader hf' text
    ∧ sentiment_ensemble vader hf text = vaderResult (vader (pyStrip text))
    ∧ (sentiment_ensemble vader hf text).finbert = none
    ∧ (sentiment_ensemble vader hf text).roberta = none
    ∧ (sentiment_ensemble vader hf text).label
        = (if vader (pyStrip text) ≥ 3/10 then SLabel.pos
          else if vader (pyStrip text) ≤ -(3/10) then SLabel.neg
          else SLabel.neu)
    ∧ (sentiment_ensemble vader hf text).score
        = (vader (pyStrip text) + 1) / 2 := by
  have hshort : (pyStrip text).length < 16 :=
    lt_of_le_of_lt (pyStrip_length_le text) hlen
  have hrw : ∀ g : String → Option HFOut,
      sentiment_ensemble vader g text = vaderResult (vader (pyStrip text)) := by
    intro g
    unfold sentiment_ensemble
    simp [hshort]
  refine ⟨by rw [hrw hf, hrw hf'], hrw hf, ?_, ?_, ?_, ?_⟩ <;>
    rw [hrw hf] <;> simp [vaderResult]

/-- Witness for C5 at the concrete eleven-character text "rates fell!"
with a lexicon compound of -0.5 and two different transformer oracles. -/
theorem C5_short_text_lexicon_only_witness :
    ("rates fell!".length < 16)
    ∧ (sentiment_ensemble (fun _ => -1/2) (fun _ => none) "rates fell!"
        = sentiment_ensemble (fun _ => -1/2)
            (fun _ => some ⟨⟨"positive", 9/10⟩, ⟨"LABEL_2", 9/10⟩⟩) "rates fell!"
      ∧ sentiment_ensemble (fun _ => -1/2) (fun _ => none) "rates fell!"
          = vaderResult ((fun _ => (-1/2 : ℚ)) (pyStrip "rates fell!"))
      ∧ (sentiment_ensemble (fun _ => -1/2) (fun _ => none) "rates fell!").finbert
          = none
      ∧ (sentiment_ensemble (fun _ => -1/2) (fun _ => none) "rates fell!").roberta
          = none
      ∧ (sentiment_ensemble (fun _ => -1/2) (fun _ => none) "rates fell!").label
          = (if ((fun _ => (-1/2 : ℚ)) (pyStrip "rates fell!")) ≥ 3/10 then SLabel.pos
            else if ((fun _ => (-1/2 : ℚ)) (pyStrip "rates fell!")) ≤ -(3/10)
              then SLabel.neg
            else SLabel.neu)
      ∧ (sentiment_ensemble (fun _ => -1/2) (fun _ => none) "rates fell!").score
          = (((fun _ => (-1/2 : ℚ)) (pyStrip "rates fell!")) + 1) / 2) :=
  ⟨by decide,
    C5_short_text_lexicon_only (fun _ => -1/2) (fun _ => none)
      (fun _ => some ⟨⟨"positive", 9/10⟩, ⟨"LABEL_2", 9/10⟩⟩)
      "rates fell!" (by decide)⟩

/-- C6: whatever fused compound the ensemble produced before the
heuristic nudges, and whatever cue words the text holds, the nudged and
clamped compound stays within [-1, 1] and the derived score
(compound + 1) / 2 stays within [0, 1]. -/
theorem C6_compound_clamped (t : String) (comp : ℚ) :
    -1 ≤ nudgeClamp t comp ∧ nudgeClamp t comp ≤ 1
    ∧ 0 ≤ (nudgeClamp t comp + 1) / 2 ∧ (nudgeClamp t comp + 1) / 2 ≤ 1 := by
  have hlo : -1 ≤ nudgeClamp t comp := by
    unfold nudgeClamp
    exact le_max_left _ _
  have hhi : nudgeClamp t comp ≤ 1 := by
    unfold nudgeClamp
    exact max_le (by norm_num) (min_le_left _ _)
  refine ⟨hlo, hhi, ?_, ?_⟩
  · have : (0 : ℚ) ≤ nudgeClamp t comp + 1 := by linarith
    positivity
  · linarith

/-- C7 counterexample: one 429 carrying a suggested wait of 2 seconds,
then a success whose payload reports message id 777.  tg_send sleeps 2
seconds and returns — but returns None: no delivery id ever reaches the
caller, refuting the claim that the channel eventually returns a delivery
id (the source function is annotated -> None and discards result.message_id). -/
theorem C7_rate_limit_counterexample :
    tg_send [⟨429, .parsed 2, .absent, true, none⟩,
      ⟨200, .absent, .absent, true, some 777⟩] = ([2], .returned none)
    ∧ returnsId (tg_send [⟨429, .parsed 2, .absent, true, none⟩,
        ⟨200, .absent, .absent, true, some 777⟩]).2 = false := by
  constructor <;> rfl

/-- C7 amended: for any number of 429 signals with any hints followed by a
success, tg_send sleeps each signal's suggested duration (3 seconds when
the hint is absent or unparsable), keeps retrying with no retry bound,
and then returns normally — with Python value None, surfacing no delivery
id; the per-item retrying is wholly inside the delivery call, so the
caller never re-runs the item from the fetch stage. -/
theorem C7_rate_limit_resilience (hints : List (RHint × RHint))
    (okF : Bool) (mId : Option Int) :
    tg_send (hints.map mk429 ++ [⟨200, .absent, .absent, okF, mId⟩])
      = (hints.map fun p => suggestedWait p.1 p.2, .returned none) := by
  induction hints with
  | nil => simp [tg_send]
  | cons p rest ih =>
      simp only [List.map_cons, List.cons_append, tg_send, mk429, List.append_eq]
      rw [ih]
      simp

theorem x_seen_before_x_mark_seen (t : XTable) (postId username content : String)
    (postedAt : Option Int) (now : Int) (mid : Option Int) :
    x_seen_before (x_mark_seen t postId username content postedAt now mid)
      postId = true := by
  unfold x_mark_seen x_seen_before
  simp [List.any_append]

theorem process_x_post_of_seen (store : XTable) (p : XPost)
    (script : List XResp) (now : Int)
    (hs : x_seen_before store p.postId = true) :
    process_x_post store p script now = (store, false) := by
  unfold process_x_post
  simp [hs]

theorem tg_send_message_aux_attempts_le (fuel rc : Nat) (script : List XResp) :
    (tg_send_message_aux fuel rc script).2.1 ≤ fuel := by
  induction fuel generalizing rc script with
  | zero => simp [tg_send_message_aux]
  | succ n ih =>
      rcases script with _ | ⟨hd, rest⟩
      · rw [tg_send_message_aux]
        split
        · have := ih (rc + 1) []
          simp only
          omega
        · simp
      · rcases hd with hint | mid | _ | _
        · rw [tg_send_message_aux]
          have := ih (rc + 1) rest
          simp only
          omega
        · rw [tg_send_message_aux]
          simp
        · rw [tg_send_message_aux]
          simp
        · rw [tg_send_message_aux]
          split
          · have := ih (rc + 1) rest
            simp only
            omega
          · simp

theorem tg_send_message_aux_all_failing_none (fuel rc : Nat)
    (script : List XResp)
    (hall : ∀ r ∈ script, isFailing r = true) :
    (tg_send_message_aux fuel rc script).2.2 = none := by
  induction fuel generalizing rc script with
  | zero => simp [tg_send_message_aux]
  | succ n ih =>
      rcases script with _ | ⟨hd, rest⟩
      · rw [tg_send_message_aux]
        split
        · exact ih (rc + 1) [] (by intro r hr; cases hr)
        · simp
      · have hhd : isFailing hd = true := hall hd (List.mem_cons_self hd rest)
        rcases hd with hint | mid | _ | _
        · rw [tg_send_message_aux]
          exact ih (rc + 1) rest
            (fun r hr => hall r (List.mem_cons_of_mem _ hr))
        · simp [isFailing] at hhd
        · simp [isFailing] at hhd
        · rw [tg_send_message_aux]
          split
          · exact ih (rc + 1) rest
              (fun r hr => hall r (List.mem_cons_of_mem _ hr))
          · simp

/-- C8: under any persistent failure of the delivery call — every POST
attempt either rate-limited (429, sleeping the suggested duration) or
raising a delivery error (sleeping the exponential backoff while retry
budget remains) — the social-timeline delivery makes at most three POST
attempts, then fails returning no message id; the caller nonetheless
records the post in the dedup store (with message id None), counts no
outbound message, and on any later cycle the pre-check skips the post
entirely — it is treated as handled and never retried. -/
theorem C8_bounded_retry_then_commit (script : List XResp)
    (hall : ∀ r ∈ script, isFailing r = true)
    (store : XTable) (p : XPost)
    (hnew : x_seen_before store p.postId = false)
    (now : Int) (script₂ : List XResp) (now₂ : Int) :
    (tg_send_message script).2.1 ≤ 3
    ∧ (tg_send_message script).2.2 = none
    ∧ process_x_post store p script now
        = (x_mark_seen store p.postId p.username p.content p.postedAt now none,
          false)
    ∧ x_seen_before (process_x_post store p script now).1 p.postId = true
    ∧ process_x_post (process_x_post store p script now).1 p script₂ now₂
        = ((process_x_post store p script now).1, false) := by
  have hatt : (tg_send_message script).2.1 ≤ 3 :=
    tg_send_message_aux_attempts_le 3 0 script
  have hnone : (tg_send_message script).2.2 = none :=
    tg_send_message_aux_all_failing_none 3 0 script hall
  have hproc : process_x_post store p script now
      = (x_mark_seen store p.postId p.username p.content p.postedAt now none,
        false) := by
    unfold process_x_post
    simp [hnew, hnone]
  have hseen : x_seen_before (process_x_post store p script now).1 p.postId
      = true := by
    rw [hproc]
    exact x_seen_before_x_mark_seen store p.postId p.username p.content
      p.postedAt now none
  exact ⟨hatt, hnone, hproc, hseen,
    process_x_post_of_seen (process_x_post store p script now).1 p script₂
      now₂ hseen⟩

/-- Witness for C8 at a script mixing both failure kinds: a 429 with no
hint (default sleep 5), then a delivery error on the second attempt
(exponential backoff sleep 2 squared = 4), then a 429 suggesting 7 —
three attempts, sleeps [5, 4, 7], no message id; against an empty store
the post is committed as handled and the second cycle skips it. -/
theorem C8_bounded_retry_then_commit_witness :
    (∀ r ∈ [XResp.rate none, XResp.err, XResp.rate (some 7)],
        isFailing r = true)
    ∧ x_seen_before [] "42" = false
    ∧ (tg_send_message [XResp.rate none, XResp.err, XResp.rate (some 7)]).1
        = [5, 4, 7]
    ∧ ((tg_send_message [XResp.rate none, XResp.err, XResp.rate (some 7)]).2.1 ≤ 3
      ∧ (tg_send_message [XResp.rate none, XResp.err, XResp.rate (some 7)]).2.2
          = none
      ∧ process_x_post [] ⟨"42", "u", "hello", some 5⟩
          [XResp.rate none, XResp.err, XResp.rate (some 7)] 100
          = (x_mark_seen [] "42" "u" "hello" (some 5) 100 none, false)
      ∧ x_seen_before
          (process_x_post [] ⟨"42", "u", "hello", some 5⟩
            [XResp.rate none, XResp.err, XResp.rate (some 7)] 100).1
          "42" = true
      ∧ process_x_post
          (process_x_post [] ⟨"42", "u", "hello", some 5⟩
            [XResp.rate none, XResp.err, XResp.rate (some 7)] 100).1
          ⟨"42", "u", "hello", some 5⟩ [] 200
          = ((process_x_post [] ⟨"42", "u", "hello", some 5⟩
              [XResp.rate none, XResp.err, XResp.rate (some 7)] 100).1,
            false)) :=
  ⟨by decide, by decide, by decide,
    C8_bounded_retry_then_commit
      [XResp.rate none, XResp.err, XResp.rate (some 7)] (by decide)
      [] ⟨"42", "u", "hello", some 5⟩ (by decide) 100 [] 200⟩

theorem escChar_no_tag (c : Char) :
    (escChar c).all (fun d => d ≠ '<' && d ≠ '>') = true := by
  unfold escChar
  split
  · decide
  · split
    · decide
    · split
      · decide
      · rename_i h1 h2 h3
        simp [h2, h3]

theorem hEsc_no_tag (s : String) :
    ((hEsc s).data.all fun c => c ≠ '<' && c ≠ '>') = true := by
  show (s.data.flatMap escChar).all _ = true
  induction s.data with
  | nil => rfl
  | cons c rest ih =>
      rw [List.flatMap_cons, List.all_append]
      rw [escChar_no_tag c, ih]
      rfl

theorem escChar_eq_of_clean (c : Char)
    (hc : (c ≠ '&' && c ≠ '<' && c ≠ '>') = true) : escChar c = [c] := by
  simp only [Bool.and_eq_true, decide_eq_true_eq, ne_eq] at hc
  unfold escChar
  simp [hc.1.1, hc.1.2, hc.2]

theorem flatMap_escChar_eq_self (l : List Char)
    (h : (l.all fun c => c ≠ '&' && c ≠ '<' && c ≠ '>') = true) :
    l.flatMap escChar = l := by
  induction l with
  | nil => rfl
  | cons c rest ih =>
      rw [List.all_cons, Bool.and_eq_true] at h
      rw [List.flatMap_cons, escChar_eq_of_clean c h.1, ih h.2]
      rfl

theorem hEsc_eq_self_of_clean (s : String)
    (h : (s.data.all fun c => c ≠ '&' && c ≠ '<' && c ≠ '>') = true) :
    hEsc s = s := by
  show (⟨s.data.flatMap escChar⟩ : String) = s
  rw [flatMap_escChar_eq_self s.data h]

theorem format_insights_block_spec_eq (dk : List (String × (String → Bool)))
    (url body title summary : String)
    (hclean : ((host_of url).data.all
      fun c => c ≠ '&' && c ≠ '<' && c ≠ '>') = true) :
    format_insights_block_spec dk url body title summary
      = format_insights_block dk url body title summary := by
  simp only [format_insights_block_spec, format_insights_block,
    hEsc_eq_self_of_clean (host_of url) hclean]

/-- C9 counterexample: the render operation does not escape every
user-supplied field.  With the item URL http://<u>x/y the authority part
extracted by host_of is interpolated into the insights line unescaped, so
the output carries the raw user-derived tag <u> (a tag the template never
emits) and differs from the fully escaped rendering demanded by the
specification — item content can inject markup. -/
theorem C9_render_escapes_counterexample :
    containsSubB "<u>"
      (format_message (fun _ => "") [] "f" "t" "http://<u>x/y" "s"
        ⟨.neu, 1/2, 0, none, none, some 0⟩ false none [] "") = true
    ∧ format_message (fun _ => "") [] "f" "t" "http://<u>x/y" "s"
        ⟨.neu, 1/2, 0, none, none, some 0⟩ false none [] ""
      ≠ format_message_spec (fun _ => "") [] "f" "t" "http://<u>x/y" "s"
        ⟨.neu, 1/2, 0, none, none, some 0⟩ false none [] "" := by
  constructor
  · with_unfolding_all decide
  · with_unfolding_all decide

/-- C9 amended: the render operation is a pure function of its inputs
(deterministic by construction of the embedding), and the escape helper
strips tag delimiters from every field it is applied to — title, feed
title, date, summary, why-it-matters note and the displayed URL — but the
URL-derived host in the insights block is interpolated unescaped; when
that host is free of markup characters the rendering coincides with the
fully escaped rendering of the specification. -/
theorem C9_render_escapes_amended (fmtDate : Int → String)
    (dk : List (String × (String → Bool)))
    (feedTitle title url summary : String) (sent : SentimentResult)
    (hyper : Bool) (pubTs : Option Int) (tags : List String)
    (body : String) :
    ((hEsc title).data.all fun c => c ≠ '<' && c ≠ '>') = true
    ∧ (((host_of url).data.all fun c => c ≠ '&' && c ≠ '<' && c ≠ '>') = true →
        format_message fmtDate dk feedTitle title url summary sent hyper
          pubTs tags body
          = format_message_spec fmtDate dk feedTitle title url summary sent
            hyper pubTs tags body) := by
  refine ⟨hEsc_no_tag title, fun hclean => ?_⟩
  unfold format_message format_message_spec
  rw [format_insights_block_spec_eq dk url body title summary hclean]

/-- Witness for C9 amended at a URL with a clean host: the rendering
equals the fully escaped rendering. -/
theorem C9_render_escapes_amended_witness :
    ((host_of "http://www.example.com/a").data.all
        fun c => c ≠ '&' && c ≠ '<' && c ≠ '>') = true
    ∧ ((hEsc "t").data.all fun c => c ≠ '<' && c ≠ '>') = true
    ∧ format_message (fun _ => "") [] "f" "t" "http://www.example.com/a" "s"
        ⟨.neu, 1/2, 0, none, none, some 0⟩ false none [] ""
      = format_message_spec (fun _ => "") [] "f" "t" "http://www.example.com/a"
        "s" ⟨.neu, 1/2, 0, none, none, some 0⟩ false none [] "" :=
  ⟨by decide,
    (C9_render_escapes_amended (fun _ => "") [] "f" "t"
      "http://www.example.com/a" "s" ⟨.neu, 1/2, 0, none, none, some 0⟩
      false none [] "").1,
    (C9_render_escapes_amended (fun _ => "") [] "f" "t"
      "http://www.example.com/a" "s" ⟨.neu, 1/2, 0, none, none, some 0⟩
      false none [] "").2 (by decide)⟩

theorem process_entry_of_seen (cfg : RssCfg) (env : RssEnv)
    (store : SeenTable) (e : RssEntry) (ev : EntryEnv)
    (h : seen_before store cfg.feedUrl e.key = true) :
    process_entry cfg env store e ev = (store, none) := by
  unfold process_entry
  simp [h]

theorem seen_before_mark_seen_mono (t : SeenTable) (f k' K : String)
    (p : Option Int) (n : Int) (h : seen_before t f K = true) :
    seen_before (mark_seen t f k' p n) f K = true := by
  unfold mark_seen
  split
  · exact h
  · simp [seen_before, List.any_append]
    left
    simpa [seen_before] using h

theorem process_entry_store_cases (cfg : RssCfg) (env : RssEnv)
    (store : SeenTable) (e : RssEntry) (ev : EntryEnv) :
    (process_entry cfg env store e ev).1 = store
    ∨ (process_entry cfg env store e ev).1
        = mark_seen store cfg.feedUrl e.key e.pubTs cfg.now := by
  unfold process_entry
  by_cases h1 : seen_before store cfg.feedUrl e.key = true
  · simp [h1]
  · simp only [h1, Bool.false_eq_true, if_false]
    by_cases h2 : too_old cfg.now cfg.maxAgeDays e.pubTs = true
    · simp [h2]
    · simp only [h2, Bool.false_eq_true, if_false]
      by_cases h3 : entry_include cfg env e ev = true
      · simp only [h3, Bool.not_true, Bool.false_eq_true, if_false]
        by_cases h4 : ev.sendOk = true
        · simp [h4]
        · simp [h4]
      · have h3' : entry_include cfg env e ev = false := by
          cases h : entry_include cfg env e ev
          · rfl
          · exact absurd h h3
        simp [h3']

theorem process_entry_seen_mono (cfg : RssCfg) (env : RssEnv)
    (store : SeenTable) (e : RssEntry) (ev : EntryEnv) (K : String)
    (h : seen_before store cfg.feedUrl K = true) :
    seen_before (process_entry cfg env store e ev).1 cfg.feedUrl K = true := by
  rcases process_entry_store_cases cfg env store e ev with hc | hc
  · rw [hc]; exact h
  · rw [hc]; exact seen_before_mark_seen_mono store cfg.feedUrl e.key K
      e.pubTs cfg.now h

theorem process_entry_some_elim (cfg : RssCfg) (env : RssEnv)
    (store : SeenTable) (e : RssEntry) (ev : EntryEnv) (d : Delivery)
    (h : (process_entry cfg env store e ev).2 = some d) :
    seen_before store cfg.feedUrl e.key = false
    ∧ d.key = e.key
    ∧ (process_entry cfg env store e ev).1
        = mark_seen store cfg.feedUrl e.key e.pubTs cfg.now := by
  unfold process_entry at h ⊢
  by_cases h1 : seen_before store cfg.feedUrl e.key = true
  · simp [h1] at h
  · have h1' : seen_before store cfg.feedUrl e.key = false := by
      cases hx : seen_before store cfg.feedUrl e.key
      · rfl
      · exact absurd hx h1
    refine ⟨h1', ?_⟩
    simp only [h1', Bool.false_eq_true, if_false] at h ⊢
    by_cases h2 : too_old cfg.now cfg.maxAgeDays e.pubTs = true
    · simp [h2] at h
    · have h2' : too_old cfg.now cfg.maxAgeDays e.pubTs = false := by
        cases hx : too_old cfg.now cfg.maxAgeDays e.pubTs
        · rfl
        · exact absurd hx h2
      simp only [h2', Bool.false_eq_true, if_false] at h ⊢
      by_cases h3 : entry_include cfg env e ev = true
      · simp only [h3, Bool.not_true, Bool.false_eq_true, if_false] at h ⊢
        by_cases h4 : ev.sendOk = true
        · simp only [h4, if_true] at h ⊢
          cases h
          simp
        · have h4' : ev.sendOk = false := by
            cases hx : ev.sendOk
            · rfl
            · exact absurd hx h4
          simp [h4'] at h
      · have h3' : entry_include cfg env e ev = false := by
          cases hx : entry_include cfg env e ev
          · rfl
          · exact absurd hx h3
        simp [h3'] at h

theorem process_cycle_no_redelivery (cfg : RssCfg) (env : RssEnv) (K : String)
    (es : List (RssEntry × EntryEnv)) :
    ∀ store : SeenTable, seen_before store cfg.feedUrl K = true →
      countDeliv K (process_cycle cfg env store es).2 = 0 := by
  induction es with
  | nil =>
      intro store _
      simp [process_cycle, countDeliv]
  | cons p rest ih =>
      intro store h
      obtain ⟨e, ev⟩ := p
      simp only [process_cycle]
      have hmono := process_entry_seen_mono cfg env store e ev K h
      cases hd : (process_entry cfg env store e ev).2 with
      | none =>
          simpa [hd] using ih _ hmono
      | some d =>
          obtain ⟨hns, hkey, _⟩ :=
            process_entry_some_elim cfg env store e ev d hd
          have hne : (d.key == K) = false := by
            rw [hkey]
            by_cases hx : e.key = K
            · rw [hx] at hns
              rw [hns] at h
              exact absurd h (by simp)
            · simp [hx]
          simp only [hd, countDeliv, List.filter_cons, hne,
            Bool.false_eq_true, if_false]
          simpa [countDeliv] using ih _ hmono

theorem process_cycle_count_le_one (cfg : RssCfg) (env : RssEnv) (K : String)
    (es : List (RssEntry × EntryEnv)) :
    ∀ store : SeenTable,
      countDeliv K (process_cycle cfg env store es).2 ≤ 1 := by
  induction es with
  | nil =>
      intro store
      simp [process_cycle, countDeliv]
  | cons p rest ih =>
      intro store
      obtain ⟨e, ev⟩ := p
      simp only [process_cycle]
      cases hd : (process_entry cfg env store e ev).2 with
      | none =>
          simpa [hd] using ih _
      | some d =>
          obtain ⟨hns, hkey, hst⟩ :=
            process_entry_some_elim cfg env store e ev d hd
          by_cases hk : d.key = K
          · have hseen₁ :
                seen_before (process_entry cfg env store e ev).1 cfg.feedUrl K
                  = true := by
              rw [hst, ← hk, hkey]
              exact seen_before_mark_seen store cfg.feedUrl e.key e.pubTs cfg.now
            have hrest := process_cycle_no_redelivery cfg env K rest _ hseen₁
            simp only [hd, countDeliv, List.filter_cons, hk, beq_self_eq_true,
              if_true, List.length_cons]
            simpa [countDeliv] using Nat.le_of_eq hrest
          · have hne : (d.key == K) = false := by simp [hk]
            simp only [hd, countDeliv, List.filter_cons, hne,
              Bool.false_eq_true, if_false]
            simpa [countDeliv] using ih _

theorem restartTask_of_doneErr (task : Option TaskSt)
    (h : task = some .doneErr) : restartTask true task = some .running := by
  rw [h]
  rfl

theorem restartTask_of_not_doneErr (enabled : Bool) (task : Option TaskSt)
    (h : ¬(enabled = true ∧ task = some .doneErr)) :
    restartTask enabled task = task := by
  cases enabled with
  | false => rfl
  | true =>
      cases task with
      | none => rfl
      | some t =>
          cases t with
          | running => rfl
          | doneOk => rfl
          | doneErr => exact absurd ⟨rfl, rfl⟩ h

/-- C10: every monitor iteration happens a fixed 60 seconds after the
previous one, and a sweep reschedules a fresh task for an enabled bot
exactly when its task has terminated with an error; a task that
terminated without error — or is still running, or belongs to a disabled
bot — is left untouched, hence never automatically rescheduled. -/
theorem C10_liveness_sweep (m : MState) (n : Nat) :
    (m.rssEnabled = true → m.rssTask = some .doneErr →
      (health_sweep m).rssTask = some .running)
    ∧ (m.xEnabled = true → m.xTask = some .doneErr →
      (health_sweep m).xTask = some .running)
    ∧ (¬(m.rssEnabled = true ∧ m.rssTask = some .doneErr) →
      (health_sweep m).rssTask = m.rssTask)
    ∧ (¬(m.xEnabled = true ∧ m.xTask = some .doneErr) →
      (health_sweep m).xTask = m.xTask)
    ∧ (m.rssTask = some .doneOk → (health_sweep m).rssTask = some .doneOk)
    ∧ (m.xTask = some .doneOk → (health_sweep m).xTask = some .doneOk)
    ∧ (monitor_trace m (n + 1)).2 = (monitor_trace m n).2 + 60 := by
  refine ⟨?_, ?_, ?_, ?_, ?_, ?_, rfl⟩
  · intro hen ht
    show restartTask m.rssEnabled m.rssTask = some .running
    rw [hen]
    exact restartTask_of_doneErr m.rssTask ht
  · intro hen ht
    show restartTask m.xEnabled m.xTask = some .running
    rw [hen]
    exact restartTask_of_doneErr m.xTask ht
  · exact fun h => restartTask_of_not_doneErr m.rssEnabled m.rssTask h
  · exact fun h => restartTask_of_not_doneErr m.xEnabled m.xTask h
  · intro h
    have hn : ¬(m.rssEnabled = true ∧ m.rssTask = some .doneErr) := by
      rintro ⟨_, hc⟩
      rw [h] at hc
      cases hc
    show restartTask m.rssEnabled m.rssTask = some .doneOk
    rw [restartTask_of_not_doneErr m.rssEnabled m.rssTask hn]
    exact h
  · intro h
    have hn : ¬(m.xEnabled = true ∧ m.xTask = some .doneErr) := by
      rintro ⟨_, hc⟩
      rw [h] at hc
      cases hc
    show restartTask m.xEnabled m.xTask = some .doneOk
    rw [restartTask_of_not_doneErr m.xEnabled m.xTask hn]
    exact h

/-- Witness for C10 at the state with both bots enabled, the RSS task
crashed and the X task finished cleanly: the sweep restarts the RSS task
only, and the second sweep happens 60 seconds after the first. -/
theorem C10_liveness_sweep_witness :
    ((health_sweep ⟨true, true, some .doneErr, some .doneOk⟩).rssTask
        = some .running)
    ∧ ((health_sweep ⟨true, true, some .doneErr, some .doneOk⟩).xTask
        = some .doneOk)
    ∧ (monitor_trace ⟨true, true, some .doneErr, some .doneOk⟩ 1).2
        = (monitor_trace ⟨true, true, some .doneErr, some .doneOk⟩ 0).2 + 60 :=
  ⟨(C10_liveness_sweep ⟨true, true, some .doneErr, some .doneOk⟩ 0).1
      (by decide) (by decide),
    (C10_liveness_sweep ⟨true, true, some .doneErr, some .doneOk⟩ 0).2.2.2.2.2.1
      (by decide),
    (C10_liveness_sweep ⟨true, true, some .doneErr, some .doneOk⟩ 0).2.2.2.2.2.2⟩

/-- C1: while a dedup record for (feed, K) persists, no delivery of K can
happen again.  A restart re-runs init_db, which preserves the stored
rows; the supervisor's sweep restarts a crashed task without touching any
store; and a cycle run by the restarted task from a store already holding
K delivers K zero times, because the seen_before pre-check runs before
any delivery and mark_seen only adds rows.  In general any single cycle
delivers K at most once from any store. -/
theorem C1_restart_no_redelivery (cfg : RssCfg) (env : RssEnv)
    (store : SeenTable) (K : String) (entries : List (RssEntry × EntryEnv))
    (m : MState) (store₂ : SeenTable) (entries₂ : List (RssEntry × EntryEnv))
    (hseen : seen_before store cfg.feedUrl K = true) :
    init_db store = store
    ∧ (m.rssEnabled = true → m.rssTask = some .doneErr →
        (health_sweep m).rssTask = some .running)
    ∧ countDeliv K (process_cycle cfg env (init_db store) entries).2 = 0
    ∧ countDeliv K (process_cycle cfg env store₂ entries₂).2 ≤ 1 :=
  ⟨rfl,
    fun hen ht => by
      show restartTask m.rssEnabled m.rssTask = some .running
      rw [hen]
      exact restartTask_of_doneErr m.rssTask ht,
    process_cycle_no_redelivery cfg env K entries (init_db store) hseen,
    process_cycle_count_le_one cfg env K entries₂ store₂⟩

/-- Witness for C1: a store already holding key K, a crashed manager
state, and a cycle offering the same entry K again with a send that would
succeed — the restarted cycle delivers nothing. -/
theorem C1_restart_no_redelivery_witness :
    seen_before [⟨"feed", "K", none, 50⟩] "feed" "K" = true
    ∧ (init_db [⟨"feed", "K", none, 50⟩] = [⟨"feed", "K", none, 50⟩]
      ∧ ((true : Bool) = true →
          (some TaskSt.doneErr = some TaskSt.doneErr) →
          (health_sweep ⟨true, true, some .doneErr, none⟩).rssTask
            = some .running)
      ∧ countDeliv "K"
          (process_cycle ⟨false, 2, 1000, "feed", "ft"⟩
            ⟨fun _ => 0, fun _ => none, ⟨fun _ => false, fun _ => 0, fun _ => 1⟩,
              [], fun _ => ""⟩
            (init_db [⟨"feed", "K", none, 50⟩])
            [(⟨"K", "", "fresh title", "", none⟩, ⟨"", true⟩)]).2 = 0
      ∧ countDeliv "K"
          (process_cycle ⟨false, 2, 1000, "feed", "ft"⟩
            ⟨fun _ => 0, fun _ => none, ⟨fun _ => false, fun _ => 0, fun _ => 1⟩,
              [], fun _ => ""⟩
            [] []).2 ≤ 1) :=
  ⟨by decide,
    C1_restart_no_redelivery ⟨false, 2, 1000, "feed", "ft"⟩
      ⟨fun _ => 0, fun _ => none, ⟨fun _ => false, fun _ => 0, fun _ => 1⟩,
        [], fun _ => ""⟩
      [⟨"feed", "K", none, 50⟩] "K"
      [(⟨"K", "", "fresh title", "", none⟩, ⟨"", true⟩)]
      ⟨true, true, some .doneErr, none⟩ [] []
      (by decide)⟩

/-- C3 counterexample: the claim fails at a published timestamp of
exactly 0 (the Unix epoch).  Python's falsiness test in too_old treats 0
like a missing timestamp, so an entry published at the epoch — far older
than the two-day ceiling at now = 1000000 — is not routed to the commit
step: it flows on through the pipeline and, matching the crypto family,
produces an outbound delivery. -/
theorem C3_age_ceiling_counterexample :
    too_old 1000000 2 (some 0) = false
    ∧ ((1000000 : Int) - 0 > 2 * 86400)
    ∧ (process_entry ⟨false, 2, 1000000, "feed", "ft"⟩
        ⟨fun _ => 0, fun _ => none,
          ⟨fun _ => false, fun _ => 0,
            fun s => (if containsSubB "bitcoin" s then 1 else 0)
              + (if containsSubB "etf" s then 1 else 0)⟩,
          [], fun _ => ""⟩
        [] ⟨"k1", "http://example.com/a", "bitcoin etf", "", some 0⟩
        ⟨"", true⟩).2.isSome = true := by
  refine ⟨rfl, by norm_num, ?_⟩
  with_unfolding_all decide

/-- C3 amended: for every entry whose published timestamp is present and
nonzero and older than the ceiling, for every ceiling of at least zero
days, the entry produces no outbound message and is recorded as seen
afterwards (a timestamp that is missing or exactly 0 is treated as falsy
by too_old and bypasses the age check). -/
theorem C3_age_ceiling_amended (cfg : RssCfg) (env : RssEnv)
    (store : SeenTable) (e : RssEntry) (ev : EntryEnv) (t : Int)
    (hp : e.pubTs = some t) (ht : t ≠ 0)
    (hold : cfg.now - t > cfg.maxAgeDays * 86400)
    (hceil : 0 ≤ cfg.maxAgeDays) :
    (process_entry cfg env store e ev).2 = none
    ∧ seen_before (process_entry cfg env store e ev).1 cfg.feedUrl e.key
        = true := by
  have htoo : too_old cfg.now cfg.maxAgeDays e.pubTs = true := by
    rw [hp]
    unfold too_old
    simp [ht, hold]
  by_cases h1 : seen_before store cfg.feedUrl e.key = true
  · rw [process_entry_of_seen cfg env store e ev h1]
    exact ⟨rfl, h1⟩
  · have h1' : seen_before store cfg.feedUrl e.key = false := by
      cases hx : seen_before store cfg.feedUrl e.key
      · rfl
      · exact absurd hx h1
    unfold process_entry
    simp only [h1', Bool.false_eq_true, if_false, htoo, if_true]
    exact ⟨by trivial, seen_before_mark_seen store cfg.feedUrl e.key e.pubTs
      cfg.now⟩

/-- Witness for C3 amended: an entry published at timestamp 5 with
now = 1000000 and a two-day ceiling is marked seen and not delivered. -/
theorem C3_age_ceiling_amended_witness :
    ((some (5 : Int) = some 5) ∧ (5 : Int) ≠ 0
      ∧ ((1000000 : Int) - 5 > 2 * 86400) ∧ ((0 : Int) ≤ 2))
    ∧ ((process_entry ⟨false, 2, 1000000, "feed", "ft"⟩
          ⟨fun _ => 0, fun _ => none, ⟨fun _ => false, fun _ => 0, fun _ => 1⟩,
            [], fun _ => ""⟩
          [] ⟨"k2", "", "some title", "", some 5⟩ ⟨"", true⟩).2 = none
      ∧ seen_before
          (process_entry ⟨false, 2, 1000000, "feed", "ft"⟩
            ⟨fun _ => 0, fun _ => none, ⟨fun _ => false, fun _ => 0, fun _ => 1⟩,
              [], fun _ => ""⟩
            [] ⟨"k2", "", "some title", "", some 5⟩ ⟨"", true⟩).1
          "feed" "k2" = true) :=
  ⟨⟨rfl, by decide, by decide, by decide⟩,
    C3_age_ceiling_amended ⟨false, 2, 1000000, "feed", "ft"⟩
      ⟨fun _ => 0, fun _ => none, ⟨fun _ => false, fun _ => 0, fun _ => 1⟩,
        [], fun _ => ""⟩
      [] ⟨"k2", "", "some title", "", some 5⟩ ⟨"", true⟩ 5
      rfl (by decide) (by decide) (by decide)⟩
